import Mathlib

/-!
# Verification of the RV25j cadastral OCR pipeline

Shallow embedding of the deterministic core of `RV25j_DoOCR.py`
(table-cell normalization, vertex-list building, polygon-closure
detection, canonical TOML serialization and the override reader) and of
the clipping arithmetic of `RV25j_Center.py` (`clip_all_missing`).

Modelling conventions:
* Python machine floats are modelled by exact rationals `ℚ`.  Every
  number the pipeline manipulates is read from a short decimal string
  and re-rendered to exactly three decimals, so the exact-decimal
  reading of parse/format is the observable behaviour.
* Text is modelled as `String` / `List Char`; file-system effects are
  modelled by explicit inputs (presence/absence, parse outcome) and
  outputs (the structured content that would be written).
* Python exceptions that the code does not catch are modelled with
  `Except`; exceptions caught locally are folded into the local
  fallback value, exactly where the `try/except` sits in the source.
-/

namespace RV25j

/-! ## Python string primitives -/

/-- Whitespace characters removed by Python's `str.strip()` (the ASCII
whitespace set; the exotic Unicode spaces never reach the pipeline
because the non-breaking space has already been replaced). -/
def isPySpace (c : Char) : Bool :=
  c = ' ' || c = '\t' || c = '\n' || c = '\r' || c = Char.ofNat 11 || c = Char.ofNat 12

def pyStripChars (cs : List Char) : List Char :=
  ((cs.dropWhile isPySpace).reverse.dropWhile isPySpace).reverse

/-- Model of Python `str.strip()`. -/
def pyStrip (s : String) : String := String.mk (pyStripChars s.toList)

/-- One character through `s.replace(a, b)`. -/
def subChar (a b c : Char) : Char := if c = a then b else c

/-- Model of Python `s.replace(a, b)` for single characters `a`, `b`. -/
def pyReplaceChar (a b : Char) (s : String) : String :=
  String.mk (s.toList.map (subChar a b))

/-- Cell pre-cleaning applied by `df_raw.map` (line 68 of
`RV25j_DoOCR.py`): replace the non-breaking space by a plain space and
strip.  The second `.strip()` at line 80 is a no-op after this one. -/
def preClean (s : String) : String :=
  pyStrip (pyReplaceChar (Char.ofNat 160) ' ' s)

/-- The ordered OCR character-confusion correction of lines 82-88:
six successive whole-string `replace` calls. -/
def ocrFix (s : String) : String :=
  pyReplaceChar 'L' '1' (pyReplaceChar 'l' '1' (pyReplaceChar 'i' '1'
    (pyReplaceChar 'I' '1' (pyReplaceChar 'o' '0' (pyReplaceChar 'O' '0' s)))))

/-! ## Decimal parsing and formatting -/

/-- Longest digit run at the head of a character list, with the rest. -/
def takeDigits : List Char → List Char × List Char
  | [] => ([], [])
  | c :: cs =>
      if c.isDigit then
        let p := takeDigits cs
        (c :: p.1, p.2)
      else ([], c :: cs)

def digitVal (c : Char) : ℕ := c.toNat - 48

def digitsVal (ds : List Char) : ℕ :=
  ds.foldl (fun a c => 10 * a + digitVal c) 0

/-- Continuation of the mantissa after its integer digits: an optional
fraction part. -/
def parseFracPart (ip : List Char) : List Char → Option (ℚ × List Char)
  | [] => if ip = [] then none else some ((digitsVal ip : ℚ), [])
  | c :: r2 =>
      if c = '.' then
        let q := takeDigits r2
        if ip = [] ∧ q.1 = [] then none
        else some ((digitsVal ip : ℚ) + (digitsVal q.1 : ℚ) / (10 : ℚ) ^ q.1.length, q.2)
      else if ip = [] then none else some ((digitsVal ip : ℚ), c :: r2)

/-- Mantissa of a Python float literal: `digits [. digits]` or
`. digits`, at least one digit overall.  Returns the value and the
unconsumed suffix. -/
def parseMantissa (cs : List Char) : Option (ℚ × List Char) :=
  parseFracPart (takeDigits cs).1 (takeDigits cs).2

/-- Optional leading sign; `true` means negative. -/
def splitSign (t : List Char) : Bool × List Char :=
  match t with
  | [] => (false, [])
  | c :: r =>
      if c = '-' then (true, r) else if c = '+' then (false, r) else (false, c :: r)

/-- Exponent tail `[+-]digits` that must consume the whole rest. -/
def parseExpTail (cs : List Char) : Option ℤ :=
  let sg := splitSign cs
  let p := takeDigits sg.2
  if p.1 = [] ∨ p.2 ≠ [] then none
  else some (if sg.1 then -(digitsVal p.1 : ℤ) else (digitsVal p.1 : ℤ))

/-- Unsigned part of a Python float literal: mantissa and optional
exponent, consuming the whole input. -/
def parseUnsigned (t : List Char) : Option ℚ :=
  match parseMantissa t with
  | none => none
  | some (m, rest) =>
      match rest with
      | [] => some m
      | c :: r2 =>
          if c = 'e' ∨ c = 'E' then
            match parseExpTail r2 with
            | some k => some (m * (10 : ℚ) ^ k)
            | none => none
          else none

/-- Model of Python `float(s)` on decimal literals: optional
whitespace, optional sign, mantissa, optional exponent.  The special
forms (`inf`, `nan`, underscore separators, hexadecimal) never occur in
the pipeline's inputs. -/
def pyFloatOfString (s : String) : Option ℚ :=
  let sg := splitSign (pyStripChars s.toList)
  (parseUnsigned sg.2).map fun m => if sg.1 then -m else m

/-- Decimal digit characters. -/
def digitChar : ℕ → Char
  | 0 => '0' | 1 => '1' | 2 => '2' | 3 => '3' | 4 => '4'
  | 5 => '5' | 6 => '6' | 7 => '7' | 8 => '8' | _ => '9'

/-- Decimal representation of a natural number, most significant digit
first (the digit string Python's `repr`/format emits). -/
def toDecChars (n : ℕ) : List Char :=
  if _h : n < 10 then [digitChar n]
  else toDecChars (n / 10) ++ [digitChar (n % 10)]
  decreasing_by exact Nat.div_lt_self (by omega) (by omega)

/-- Three-digit zero-padded fraction part (argument below 1000). -/
def pad3Chars (k : ℕ) : List Char :=
  let ds := toDecChars k
  List.replicate (3 - ds.length) '0' ++ ds

/-- Digit string of `f"\x7bm/1000\x7d.\x7bm%1000 padded\x7d"` for a
nonnegative numerator of thousandths. -/
def fmt3AbsChars (m : ℕ) : List Char :=
  toDecChars (m / 1000) ++ '.' :: pad3Chars (m % 1000)

/-- Rounding to thousandths as performed by `f"\x7bx:.3f\x7d"`.
Mathlib's `round` is round-half-up; Python rounds the underlying
double half-to-even, which agrees everywhere the pipeline's
3-decimal values live. -/
def roundTo3 (q : ℚ) : ℚ := (round (q * 1000) : ℤ) / 1000

/-- Model of Python `f"\x7bx:.3f\x7d"`. -/
def fmt3String (q : ℚ) : String :=
  let n : ℤ := round (q * 1000)
  if n < 0 then String.mk ('-' :: fmt3AbsChars n.natAbs)
  else String.mk (fmt3AbsChars n.natAbs)

/-! ## Cell normalization (`parse_markdown_table`, lines 74-104) -/

/-- Python `split(".")` on characters. -/
def splitDots : List Char → List (List Char)
  | [] => [[]]
  | c :: rest =>
      if c = '.' then [] :: splitDots rest
      else
        match splitDots rest with
        | [] => [[c]]
        | g :: gs => (c :: g) :: gs

/-- Lines 92-94: when more than one dot survives the character filter,
keep the first as the decimal point and concatenate the remaining
groups. -/
def dotMergeChars (cs : List Char) : List Char :=
  if 1 < (cs.filter (· = '.')).length then
    match splitDots cs with
    | [] => cs
    | g :: gs => g ++ '.' :: gs.flatten
  else cs

/-- Line 91: keep only the characters of `[0-9.]` (the regex
substitution). -/
def cleanCoordChars (v : String) : String :=
  String.mk (dotMergeChars (v.toList.filter fun c => c.isDigit || c = '.'))

/-- Lines 90-98: coordinate-column cleaning — strip everything outside
`[0-9.]`, merge extra dots, parse as float and re-render to three
decimals; empty string on parse failure. -/
def cleanCoordField (v : String) : String :=
  match pyFloatOfString (cleanCoordChars v) with
  | some q => fmt3String q
  | none => ""

/-- Whole-cell normalization: pre-cleaning, the OCR confusion fix,
then the coordinate cleaning on NORTHING/EASTING cells. -/
def normalizeCell (x : String) (isCoord : Bool) : String :=
  if isCoord then cleanCoordField (ocrFix (preClean x)) else ocrFix (preClean x)

/-! ## Rows and vertices (`parse_markdown_table` / `write_toml`) -/

/-- One normalized output row of `parse_markdown_table`: the retained
columns of `COLUMN_SPEC = [MARKER, <ignored>, NORTHING, EASTING]`. -/
structure CsvRow where
  marker : String
  northing : String
  easting : String
deriving DecidableEq, Repr, Inhabited

/-- Cell lookup with the out-of-range default of line 80
(`row.iloc[idx] if idx < len else ""`). -/
def cellAt (r : List String) (i : ℕ) : String := (r.get? i).getD ""

/-- Per-row normalization: column 0 is MARKER, column 2 NORTHING,
column 3 EASTING (column 1 is ignored by the empty `COLUMN_SPEC`
entry). -/
def normalizeRow (r : List String) : CsvRow :=
  { marker := normalizeCell (cellAt r 0) false
    northing := normalizeCell (cellAt r 2) true
    easting := normalizeCell (cellAt r 3) true }

/-- Line 101: a row is retained only if some field is non-empty. -/
def keepRow (rec : CsvRow) : Bool :=
  rec.marker ≠ "" || rec.northing ≠ "" || rec.easting ≠ ""

/-- Table-level normalization of `parse_markdown_table` on the raw
cell grid extracted from one artifact. -/
def parseTable (raws : List (List String)) : List CsvRow :=
  (raws.map normalizeRow).filter keepRow

/-- A boundary vertex as built by `write_toml` (line 165). -/
structure Vertex where
  marker : String
  north : ℚ
  east : ℚ
deriving DecidableEq, Repr, Inhabited

/-- Lines 160-167: rows whose NORTHING and EASTING both parse as
floats become vertices; the others are skipped. -/
def buildVertices (df : List CsvRow) : List Vertex :=
  df.filterMap fun r =>
    match pyFloatOfString r.northing, pyFloatOfString r.easting with
    | some n, some e => some ⟨r.marker, n, e⟩
    | _, _ => none

/-- Python `abs` on a rational, written so that it evaluates by
kernel reduction. -/
def ratAbs (q : ℚ) : ℚ := if q < 0 then -q else q

/-- The closure test of lines 176-180: both axes within `1e-3`
independently, markers equal as strings. -/
def closeMatch (f l : Vertex) : Bool :=
  decide (ratAbs (f.north - l.north) < 1 / 1000) &&
  decide (ratAbs (f.east - l.east) < 1 / 1000) &&
  decide (f.marker = l.marker)

/-- Lines 173-182: with at least two vertices and a closure match, set
the flag and drop the trailing duplicate. -/
def resolveClosure (vs : List Vertex) : List Vertex × Bool :=
  if 2 ≤ vs.length then
    if closeMatch vs.head! vs.getLast! then (vs.dropLast, true) else (vs, false)
  else (vs, false)

/-- Line 186: `chr(64+idx)` for indices up to 26, else `f"P\x7bidx\x7d"`. -/
def labelOf (idx : ℕ) : String :=
  if idx ≤ 26 then String.mk [Char.ofNat (64 + idx)] else "P" ++ Nat.repr idx

/-- One emitted `marker` row (line 187):
`[idx, label, marker, north, east]`. -/
structure MarkerRow where
  idx : ℕ
  label : String
  name : String
  n : ℚ
  e : ℚ
deriving DecidableEq, Repr, Inhabited

/-- Lines 184-187: enumerate the final vertex list from 1 and attach
generated labels. -/
def labelRows (vs : List Vertex) : List MarkerRow :=
  vs.enum.map fun p => ⟨p.1 + 1, labelOf (p.1 + 1), p.2.marker, p.2.north, p.2.east⟩

/-- Result of a `write_toml` call that actually wrote a document. -/
structure WriteOut where
  vertices : List Vertex
  closed : Bool
  rows : List MarkerRow
deriving DecidableEq, Repr, Inhabited

/-- Model of `write_toml` (lines 152-205): `none` means the early
return of lines 169-171 — no numeric rows, nothing written, the Python
function returns `([], False)`. -/
def write_toml (df : List CsvRow) : Option WriteOut :=
  if buildVertices df = [] then none
  else
    some ⟨(resolveClosure (buildVertices df)).1, (resolveClosure (buildVertices df)).2,
      labelRows (resolveClosure (buildVertices df)).1⟩

/-! ## TOML text layer -/

/-- Per-character expansion equivalent to `_toml_escape` (line 149):
`s.replace("\\", "\\\\").replace('"', '\\"')`.  The two ordered
whole-string replacements equal this single pass because the
backslashes inserted by the second rule are produced after the doubling
pass and the first rule never produces a quote. -/
def escChar (c : Char) : List Char :=
  if c = '\\' then ['\\', '\\'] else if c = '\"' then ['\\', '\"'] else [c]

def tomlEscape (s : String) : String :=
  String.mk ((s.toList.map escChar).flatten)

/-- TOML basic-string unescaping as performed by `tomllib` while
lexing; only the escapes `write_toml` can emit plus the standard
short escapes are interpreted. -/
def tomlUnescapeChars : List Char → List Char
  | [] => []
  | c :: rest =>
      if c = '\\' then
        match rest with
        | [] => [c]
        | c2 :: rest2 =>
            (if c2 = 'n' then '\n' else if c2 = 't' then '\t'
             else if c2 = 'r' then '\r' else c2) :: tomlUnescapeChars rest2
      else c :: tomlUnescapeChars rest

def tomlUnescape (s : String) : String :=
  String.mk (tomlUnescapeChars s.toList)

/-- Values `tomllib.loads` can produce (dates and times never occur in
these documents). -/
inductive TomlValue where
  | vInt (i : ℤ)
  | vFloat (q : ℚ)
  | vStr (s : String)
  | vBool (b : Bool)
  | vArr (xs : List TomlValue)
  | vTable (kvs : List (String × TomlValue))
deriving Inhabited

/-- Dictionary lookup, `dict.get(k)`. -/
def tget (kvs : List (String × TomlValue)) (k : String) : Option TomlValue :=
  (kvs.find? fun p => p.1 = k).map (·.2)

/-- Python truthiness of a parsed TOML value (`if not markers`). -/
def truthy : TomlValue → Bool
  | .vInt i => i ≠ 0
  | .vFloat q => q ≠ 0
  | .vStr s => s ≠ ""
  | .vBool b => b
  | .vArr xs => !xs.isEmpty
  | .vTable kvs => !kvs.isEmpty

/-- Python exceptions the override loader can leak (nothing above it
catches them). -/
inductive PyErr where
  | attrErr
  | typeErr
deriving DecidableEq, Repr

/-- Iteration `for row in markers:` — lists iterate elements, strings
iterate their characters, tables their keys; numbers and booleans
raise `TypeError`. -/
def iterElems : TomlValue → Except PyErr (List TomlValue)
  | .vArr xs => .ok xs
  | .vStr s => .ok (s.toList.map fun c => .vStr (String.mk [c]))
  | .vTable kvs => .ok (kvs.map fun p => .vStr p.1)
  | _ => .error .typeErr

/-- Python `str()` of a parsed TOML value, as applied to the marker
name (line 245).  The float case approximates `repr` by the 3-decimal
rendering, the only floats these documents carry. -/
def pyStrOf : TomlValue → String
  | .vStr s => s
  | .vInt i => if i < 0 then "-" ++ Nat.repr i.natAbs else Nat.repr i.natAbs
  | .vBool b => if b then "True" else "False"
  | .vFloat q => fmt3String q
  | .vArr _ => "[...]"
  | .vTable _ => "\x7b...\x7d"

/-- Python `float(x)` coercion inside the loader (line 241): numbers
and numeric strings succeed, containers raise `TypeError` — which the
`except` clause at line 243 catches, so failure is an `Option` here. -/
def pyFloatCoerce : TomlValue → Option ℚ
  | .vInt i => some (i : ℚ)
  | .vFloat q => some q
  | .vBool b => some (if b then 1 else 0)
  | .vStr s => pyFloatOfString s
  | _ => none

/-- Lines 235-245: a marker row yields a vertex when it is a list of
at least five elements whose positions 3 and 4 coerce to floats. -/
def rowToVertex (row : TomlValue) : Option Vertex :=
  match row with
  | .vArr cells =>
      if cells.length < 5 then none
      else
        match cells.get? 2, cells.get? 3, cells.get? 4 with
        | some name, some north, some east =>
            match pyFloatCoerce north, pyFloatCoerce east with
            | some n, some e => some ⟨pyStrOf name, n, e⟩
            | _, _ => none
        | _, _, _ => none
  | _ => none

/-- Lines 229-251, after `tbl = data.get("Deed", data)`: reading the
`marker` array out of the selected table and converting its rows.
Calling `.get` on a non-table value raises `AttributeError`,
uncaught. -/
def loadDeed : TomlValue → Except PyErr (Option (List Vertex))
  | .vTable kvs2 =>
      match tget kvs2 "marker" with
      | none => .ok none
      | some m =>
          if truthy m then
            match iterElems m with
            | .error e => .error e
            | .ok rows =>
                if rows.filterMap rowToVertex = [] then .ok none
                else .ok (some (rows.filterMap rowToVertex))
          else .ok none
  | _ => .error .attrErr

/-- Core of `load_vertices_from_side_toml` after a successful parse
(lines 227-251).  `data.get("Deed", data)` falls back to the whole
document. -/
def loadFromDoc : TomlValue → Except PyErr (Option (List Vertex))
  | .vTable kvs => loadDeed ((tget kvs "Deed").getD (.vTable kvs))
  | _ => .error .attrErr

/-- Full `load_vertices_from_side_toml` (lines 208-251).  The input is
the state of the side file: `none` — absent; `some (.error _)` — the
read or `tomllib.loads` raised (caught at line 223, loader returns
`None`); `some (.ok data)` — parsed document. -/
def load_vertices_from_side_toml (side : Option (Except String TomlValue)) :
    Except PyErr (Option (List Vertex)) :=
  match side with
  | none => .ok none
  | some (.error _) => .ok none
  | some (.ok data) => loadFromDoc data

/-- Text-level content of one written marker line (lines 196-200):
the index, the two escaped strings and the two `.3f`-rendered
coordinates. -/
structure TextRow where
  idx : ℕ
  label : String
  name : String
  nTxt : String
  eTxt : String
deriving DecidableEq, Repr

/-- Lines 196-200: the data each emitted text line carries. -/
def writeTextRows (rows : List MarkerRow) : List TextRow :=
  rows.map fun r => ⟨r.idx, tomlEscape r.label, tomlEscape r.name, fmt3String r.n, fmt3String r.e⟩

/-- The TOML value `tomllib` reads back from one emitted marker line:
basic strings are unescaped during lexing and the decimal literals are
read exactly. -/
def writtenRowValue (r : TextRow) : TomlValue :=
  .vArr [ .vInt r.idx, .vStr (tomlUnescape r.label), .vStr (tomlUnescape r.name)
        , .vFloat ((pyFloatOfString r.nTxt).getD 0)
        , .vFloat ((pyFloatOfString r.eTxt).getD 0)]

/-- The TOML value `tomllib.loads` returns on the exact text
`write_toml` emits (lines 189-203): one `[Deed]` table with the fixed
header keys and the `marker` array. -/
def tomlOfWritten (closed : Bool) (trs : List TextRow) : TomlValue :=
  .vTable [("Deed", .vTable
    [ ("crs", .vStr "32647")
    , ("unit", .vStr "meter")
    , ("polygon_closed", .vBool closed)
    , ("marker", .vArr (trs.map writtenRowValue))])]

/-! ## Clipper (`RV25j_Center.py`, `clip_all_missing`, lines 735-758) -/

/-- A rectangle as read from a `*_rect.json` file: float upper-left
and lower-right corners. -/
structure RectQ where
  ulx : ℚ
  uly : ℚ
  lrx : ℚ
  lry : ℚ
deriving DecidableEq, Repr

/-- Lines 742-746: clamp each coordinate into the image bounds. -/
def clampRect (w h : ℚ) (r : RectQ) : RectQ :=
  ⟨max 0 (min w r.ulx), max 0 (min h r.uly), max 0 (min w r.lrx), max 0 (min h r.lry)⟩

/-- Lines 742-750: clamp, then reject the region (`continue`) when the
clamped width or height is not positive; otherwise hand the clamped
box to the crop. -/
def clipCheck (w h : ℚ) (r : RectQ) : Option RectQ :=
  let c := clampRect w h r
  if c.lrx ≤ c.ulx ∨ c.lry ≤ c.uly then none else some c

/-- Python `round` applied by the crop to each box coordinate.
Python rounds ties to even; only integral coordinates matter to the
properties here, where the two agree. -/
def pyRound (q : ℚ) : ℤ := round q

/-- Lines 752-756: crop to the clamped box and downscale — width and
height are halved with integer division, floored at one pixel. -/
def clippedSize (w h : ℕ) (r : RectQ) : Option (ℕ × ℕ) :=
  (clipCheck (w : ℚ) (h : ℚ) r).map fun c =>
    ( max 1 ((pyRound c.lrx - pyRound c.ulx).toNat / 2)
    , max 1 ((pyRound c.lry - pyRound c.uly).toNat / 2))

/-! ## Orchestrator (`process`, lines 290-325) -/

/-- Environment of one `*_table.jpg` document, covering every way the
outside world can answer the per-document calls. -/
structure DocEnv where
  /-- Outcome of `self.pipeline.predict` in `run_ocr`: an uncaught
  engine exception, or the raw cell grids of the recognized tables.
  Each table artifact is then read back by `parse_markdown_table`,
  which catches its own read failures (an `.error` entry) and turns
  them into an empty frame. -/
  tables : Except String (List (Except String (List (List String))))
  /-- Whether `toml_path.write_text` succeeds (it is not wrapped in a
  `try`). -/
  writeOk : Bool
  /-- The side `*_MAPL1x.toml` file, as consumed by
  `load_vertices_from_side_toml`. -/
  side : Option (Except String TomlValue)

/-- What the pipeline does for one document. -/
structure DocOutcome where
  df : List CsvRow
  /-- Canonical document content, when `write_toml` actually wrote. -/
  written : Option (Bool × List MarkerRow)
  /-- Vertex list handed to `plot_polygon`, if any. -/
  plotted : Option (List Vertex)
deriving DecidableEq, Repr

/-- Failures that escape the per-document code: nothing inside the
`for img in images` loop catches them. -/
inductive Failure where
  | engine (msg : String)
  | writeErr
  | pyErr (e : PyErr)
  | noRoot
  | noImages
deriving DecidableEq, Repr

/-- One artifact through `parse_markdown_table`: a read/parse failure
is caught there and yields an empty frame (lines 57-65). -/
def parseArtifact : Except String (List (List String)) → List CsvRow
  | .error _ => []
  | .ok raws => parseTable raws

/-- Lines 115-128 plus the `skip_ocr` merge: one frame per parseable
artifact, empty frames dropped, the rest concatenated in order. -/
def dfOf (arts : List (Except String (List (List String)))) : List CsvRow :=
  ((arts.map parseArtifact).filter fun t => !t.isEmpty).flatten

/-- Lines 304-308: call `write_toml` when the frame is non-empty;
`none` models an uncaught exception from `write_text`.  Returns the
written content (if any) and the vertices available for plotting. -/
def writeStep (df : List CsvRow) (writeOk : Bool) :
    Option (Option (Bool × List MarkerRow) × List Vertex) :=
  if df.isEmpty then some (none, [])
  else
    match write_toml df with
    | none => some (none, [])
    | some res => if writeOk then some (some (res.closed, res.rows), res.vertices) else none

/-- Lines 313-323: the override vertices are plotted when truthy, else
the OCR vertices when non-empty, else nothing. -/
def choosePlot (sideV : Option (List Vertex)) (ocrVerts : List Vertex) :
    Option (List Vertex) :=
  match sideV with
  | some l =>
      if l.isEmpty then (if ocrVerts.isEmpty then none else some ocrVerts) else some l
  | none => if ocrVerts.isEmpty then none else some ocrVerts

/-- One loop body of `process` (lines 297-323): OCR, canonical write,
override resolution, choice of the plotted vertex list. -/
def processDoc (d : DocEnv) : Except Failure DocOutcome :=
  match d.tables with
  | .error s => .error (.engine s)
  | .ok arts =>
      match writeStep (dfOf arts) d.writeOk with
      | none => .error .writeErr
      | some (written, ocrVerts) =>
          match load_vertices_from_side_toml d.side with
          | .error e => .error (.pyErr e)
          | .ok sideV => .ok ⟨dfOf arts, written, choosePlot sideV ocrVerts⟩

/-- The whole `for img in images` loop: the first uncaught exception
aborts the batch, dropping every later document. -/
def processBatch : List DocEnv → Except Failure (List DocOutcome)
  | [] => .ok []
  | d :: ds =>
      match processDoc d with
      | .error e => .error e
      | .ok o =>
          match processBatch ds with
          | .error e => .error e
          | .ok os => .ok (o :: os)

/-- Constructor check plus `process` (lines 33-34 and 290-293): a
missing root folder raises before anything runs, an empty glob raises
`SystemExit` before the loop. -/
def runPipeline (rootIsDir : Bool) (docs : List DocEnv) :
    Except Failure (List DocOutcome) :=
  if !rootIsDir then .error .noRoot
  else if docs.isEmpty then .error .noImages
  else processBatch docs

/-! ## Spec-worded normalizer (for the refinement claim) -/

/-- Confusion correction as the spec words it: one left-to-right pass,
per character, over the ordered rule list O→0, o→0, I→1, i→1, l→1,
L→1. -/
def specSubstChar (c : Char) : Char :=
  if c = 'O' ∨ c = 'o' then '0'
  else if c = 'I' ∨ c = 'i' ∨ c = 'l' ∨ c = 'L' then '1'
  else c

/-- Cell normalization as the spec words it: trim and collapse
non-breaking spaces, apply the single substitution pass, and for
coordinate cells the `[0-9.]` strip / dot merge / float parse /
3-decimal re-render of `cleanCoordField`, whose steps the spec states
verbatim. -/
def specNormalizeCell (x : String) (isCoord : Bool) : String :=
  if isCoord then cleanCoordField (String.mk ((preClean x).toList.map specSubstChar))
  else String.mk ((preClean x).toList.map specSubstChar)

/-! ## Concrete inputs used by witnesses and counterexamples -/

/-- Rationals that are whole multiples of one thousandth — the form
every normalized coordinate takes. -/
def isMilli (q : ℚ) : Prop := ∃ k : ℤ, (k : ℚ) = q * 1000

/-- Raw one-row grid for the round-trip witness. -/
def rawsC1 : List (List String) := [["M", "", "1.5", "2.5"]]

/-- The document `write_toml` produces on `rawsC1`. -/
def resC1 : WriteOut :=
  ⟨[⟨"M", 3/2, 5/2⟩], false, [⟨1, "A", "M", 3/2, 5/2⟩]⟩

/-- Two exactly coincident vertices, for the closure witness. -/
def vsC2 : List Vertex := [⟨"A", 0, 0⟩, ⟨"A", 0, 0⟩]

/-- Rows that repeat the closing vertex twice: the closure fix removes
only one copy. -/
def dfC3 : List CsvRow :=
  [⟨"A", "0.000", "0.000"⟩, ⟨"B", "5.000", "5.000"⟩,
   ⟨"A", "0.000", "0.000"⟩, ⟨"A", "0.000", "0.000"⟩]

/-- What `write_toml` returns on `dfC3`. -/
def resC3 : WriteOut :=
  ⟨[⟨"A", 0, 0⟩, ⟨"B", 5, 5⟩, ⟨"A", 0, 0⟩], true,
   [⟨1, "A", "A", 0, 0⟩, ⟨2, "B", "B", 5, 5⟩, ⟨3, "C", "A", 0, 0⟩]⟩

/-- A trailing vertex list for the amended closure-invariant witness. -/
def vsC3 : List Vertex := [⟨"P", 1, 2⟩, ⟨"P", 1, 2⟩]

/-- A document whose recognition call raises. -/
def dEngineFail : DocEnv := ⟨.error "engine crash", true, none⟩

/-- A document whose recognition succeeds with one numeric row. -/
def dGood : DocEnv := ⟨.ok [.ok [["M", "", "1.5", "2.5"]]], true, none⟩

/-- A document whose table has a marker but no parseable coordinates:
OCR runs, yet nothing is written. -/
def dNoNumeric : DocEnv := ⟨.ok [.ok [["A", "", "abc", "def"]]], true, none⟩

/-- An override vertex used by the precedence witness. -/
def vOvr : Vertex := ⟨"s24", 1, 2⟩

/-- A document with no OCR rows but a well-formed override file. -/
def dOvr : DocEnv :=
  ⟨.ok [], true, some (.ok (.vTable [("marker",
    .vArr [.vArr [.vInt 1, .vStr "A", .vStr "s24", .vFloat 1, .vFloat 2]])]))⟩

/-- The outcome `processDoc` yields on `dOvr`. -/
def oOvr : DocOutcome := ⟨[], none, some [vOvr]⟩

/-- A parsed override document whose `Deed` key holds a plain integer:
`data.get("Deed", data)` then hits `.get` on an `int`. -/
def docDeedInt : TomlValue := .vTable [("Deed", .vInt 5)]

/-- A marker array with a single non-list row, for the no-qualifying
-row witness. -/
def rowsC10 : List TomlValue := [.vInt 7]

/-- A benign document for the batch-totality witness (an unparseable
artifact and an unparseable side file, both tolerated). -/
def dTolerated : DocEnv := ⟨.ok [.error "bad artifact"], true, some (.error "bad toml")⟩

/-- A document with one numeric row whose canonical write raises
(`writeOk = false` models `write_text` throwing). -/
def dWriteFail : DocEnv := ⟨.ok [.ok [["M", "", "1.5", "2.5"]]], false, none⟩

/-- The document `write_toml` computes for `dWriteFail`'s frame. -/
def resC5 : WriteOut := ⟨[⟨"M", 3/2, 5/2⟩], false, [⟨1, "A", "M", 3/2, 5/2⟩]⟩

/-- One-row frame for the label witness. -/
def dfC9 : List CsvRow := [⟨"X", "2.000", "3.000"⟩]

/-- What `write_toml` returns on `dfC9`. -/
def resC9 : WriteOut := ⟨[⟨"X", 2, 3⟩], false, [⟨1, "A", "X", 2, 3⟩]⟩

/-- Property of a document the per-document loop can fully survive:
the engine call returned, the canonical write does not raise, and the
override loader does not raise. -/
def benign (d : DocEnv) : Prop :=
  (∃ arts, d.tables = .ok arts) ∧ d.writeOk = true ∧
  (∃ r, load_vertices_from_side_toml d.side = .ok r)

/-! ## Supporting lemmas: digit strings -/

theorem dropWhile_eq_self_of_head (p : Char → Bool) (l : List Char)
    (h : ∀ c ∈ l, p c = false) : l.dropWhile p = l := by
  cases l with
  | nil => rfl
  | cons a t => simp [List.dropWhile_cons, h a (by simp)]

theorem pyStripChars_of_no_space (l : List Char)
    (h : ∀ c ∈ l, isPySpace c = false) : pyStripChars l = l := by
  unfold pyStripChars
  rw [dropWhile_eq_self_of_head _ _ h,
    dropWhile_eq_self_of_head _ _ (fun c hc => h c (List.mem_reverse.mp hc)),
    List.reverse_reverse]

theorem isPySpace_eq_false_of_isDigit (c : Char) (h : c.isDigit = true) :
    isPySpace c = false := by
  by_contra hc
  rw [Bool.not_eq_false, isPySpace] at hc
  simp only [Bool.or_eq_true, decide_eq_true_eq] at hc
  rcases hc with ((((h1 | h1) | h1) | h1) | h1) | h1 <;> subst h1 <;>
    exact absurd h (by decide)

theorem digitChar_isDigit (d : ℕ) : (digitChar d).isDigit = true := by
  unfold digitChar
  split <;> decide

theorem digitVal_digitChar (d : ℕ) (h : d < 10) : digitVal (digitChar d) = d := by
  interval_cases d <;> decide

theorem toDecChars_ne_nil (n : ℕ) : toDecChars n ≠ [] := by
  rw [toDecChars]
  split <;> simp

theorem toDecChars_digits (n : ℕ) : ∀ c ∈ toDecChars n, c.isDigit = true := by
  induction n using Nat.strong_induction_on with
  | _ n ih =>
    rw [toDecChars]
    split
    · intro c hc
      rw [List.mem_singleton] at hc
      subst hc
      exact digitChar_isDigit _
    · intro c hc
      rcases List.mem_append.mp hc with h | h
      · exact ih (n / 10) (Nat.div_lt_self (by omega) (by omega)) c h
      · rw [List.mem_singleton] at h
        subst h
        exact digitChar_isDigit _

theorem digitsVal_append_singleton (l : List Char) (c : Char) :
    digitsVal (l ++ [c]) = 10 * digitsVal l + digitVal c := by
  unfold digitsVal
  rw [List.foldl_append]
  rfl

theorem digitsVal_toDecChars (n : ℕ) : digitsVal (toDecChars n) = n := by
  induction n using Nat.strong_induction_on with
  | _ n ih =>
    rw [toDecChars]
    split
    case isTrue h =>
      show digitsVal [digitChar n] = n
      unfold digitsVal
      simp [digitVal_digitChar n h]
    case isFalse h =>
      rw [digitsVal_append_singleton,
        ih (n / 10) (Nat.div_lt_self (by omega) (by omega)),
        digitVal_digitChar _ (Nat.mod_lt _ (by omega))]
      omega

theorem toDecChars_length_le (k : ℕ) : ∀ n : ℕ, n < 10 ^ (k + 1) →
    (toDecChars n).length ≤ k + 1 := by
  induction k with
  | zero =>
      intro n hn
      rw [toDecChars]
      split
      · simp
      · omega
  | succ k ih =>
      intro n hn
      rw [toDecChars]
      split
      · simp
      · have hd : n / 10 < 10 ^ (k + 1) := by
          rw [Nat.div_lt_iff_lt_mul (by omega)]
          calc n < 10 ^ (k + 2) := hn
          _ = 10 ^ (k + 1) * 10 := by ring
        simpa using Nat.succ_le_succ (ih (n / 10) hd)

theorem digitsVal_replicate_zero (m : ℕ) (l : List Char) :
    digitsVal (List.replicate m '0' ++ l) = digitsVal l := by
  induction m with
  | zero => rfl
  | succ m ih =>
      rw [List.replicate_succ, List.cons_append]
      show digitsVal (List.replicate m '0' ++ l) = digitsVal l
      exact ih

theorem pad3Chars_length (k : ℕ) (h : k < 1000) : (pad3Chars k).length = 3 := by
  have hle : (toDecChars k).length ≤ 3 := toDecChars_length_le 2 k (by omega)
  unfold pad3Chars
  simp only [List.length_append, List.length_replicate]
  omega

theorem pad3Chars_digits (k : ℕ) : ∀ c ∈ pad3Chars k, c.isDigit = true := by
  intro c hc
  unfold pad3Chars at hc
  rcases List.mem_append.mp hc with h | h
  · rw [List.eq_of_mem_replicate h]
    decide
  · exact toDecChars_digits k c h

theorem digitsVal_pad3Chars (k : ℕ) : digitsVal (pad3Chars k) = k := by
  unfold pad3Chars
  rw [digitsVal_replicate_zero, digitsVal_toDecChars]

/-! ## Supporting lemmas: parsing back a formatted number -/

theorem takeDigits_append (ds rest : List Char)
    (hds : ∀ c ∈ ds, c.isDigit = true)
    (hrest : ∀ c, rest.head? = some c → c.isDigit = false) :
    takeDigits (ds ++ rest) = (ds, rest) := by
  induction ds with
  | nil =>
      cases rest with
      | nil => rfl
      | cons c t => simp [takeDigits, hrest c rfl]
  | cons a t ih =>
      have ha : a.isDigit = true := hds a (by simp)
      have ih2 := ih fun c hc => hds c (by simp [hc])
      simp only [List.cons_append, takeDigits, ha, if_true, List.append_eq, ih2]

theorem takeDigits_all (ds : List Char) (hds : ∀ c ∈ ds, c.isDigit = true) :
    takeDigits ds = (ds, []) := by
  simpa using takeDigits_append ds [] hds (by simp)

theorem parseMantissa_fmt3Abs (m : ℕ) :
    parseMantissa (fmt3AbsChars m) = some ((m : ℚ) / 1000, []) := by
  have hint : ∀ c ∈ toDecChars (m / 1000), c.isDigit = true := toDecChars_digits _
  have hfrac : ∀ c ∈ pad3Chars (m % 1000), c.isDigit = true := pad3Chars_digits _
  have htake : takeDigits (toDecChars (m / 1000) ++ '.' :: pad3Chars (m % 1000))
      = (toDecChars (m / 1000), '.' :: pad3Chars (m % 1000)) :=
    takeDigits_append _ _ hint (by
      intro c hc
      simp only [List.head?_cons, Option.some.injEq] at hc
      subst hc
      decide)
  unfold fmt3AbsChars parseMantissa
  rw [htake]
  show parseFracPart (toDecChars (m / 1000)) ('.' :: pad3Chars (m % 1000)) = _
  rw [parseFracPart, if_pos rfl, takeDigits_all _ hfrac,
    if_neg (by simp [toDecChars_ne_nil])]
  simp only [digitsVal_toDecChars, digitsVal_pad3Chars,
    pad3Chars_length (m % 1000) (Nat.mod_lt _ (by omega))]
  have hval : ((m / 1000 : ℕ) : ℚ) + ((m % 1000 : ℕ) : ℚ) / (10 : ℚ) ^ 3
      = (m : ℚ) / 1000 := by
    field_simp
    norm_num
    exact_mod_cast (by omega : m / 1000 * 1000 + m % 1000 = m)
  rw [hval]

theorem parseUnsigned_fmt3Abs (m : ℕ) :
    parseUnsigned (fmt3AbsChars m) = some ((m : ℚ) / 1000) := by
  unfold parseUnsigned
  rw [parseMantissa_fmt3Abs]

theorem fmt3AbsChars_no_space (m : ℕ) :
    ∀ c ∈ fmt3AbsChars m, isPySpace c = false := by
  intro c hc
  unfold fmt3AbsChars at hc
  rcases List.mem_append.mp hc with h | h
  · exact isPySpace_eq_false_of_isDigit c (toDecChars_digits _ c h)
  · rcases List.mem_cons.mp h with h | h
    · subst h; decide
    · exact isPySpace_eq_false_of_isDigit c (pad3Chars_digits _ c h)

theorem fmt3AbsChars_head_digit (m : ℕ) :
    ∀ c, (fmt3AbsChars m).head? = some c → c.isDigit = true := by
  intro c hc
  unfold fmt3AbsChars at hc
  obtain ⟨a, t, ht⟩ := List.exists_cons_of_ne_nil (toDecChars_ne_nil (m / 1000))
  rw [ht] at hc
  simp only [List.cons_append, List.head?_cons, Option.some.injEq] at hc
  subst hc
  exact toDecChars_digits (m / 1000) _ (by rw [ht]; simp)

theorem splitSign_of_digit (t : List Char)
    (h : ∀ c, t.head? = some c → c.isDigit = true) : splitSign t = (false, t) := by
  cases t with
  | nil => rfl
  | cons c r =>
      have hd := h c rfl
      rw [splitSign, if_neg (by rintro rfl; exact absurd hd (by decide)),
        if_neg (by rintro rfl; exact absurd hd (by decide))]

theorem splitSign_neg (l : List Char) : splitSign ('-' :: l) = (true, l) := by
  rw [splitSign, if_pos rfl]

theorem string_toList_mk (l : List Char) : (String.mk l).toList = l := rfl

theorem pyFloat_fmt3String (q : ℚ) :
    pyFloatOfString (fmt3String q) = some (roundTo3 q) := by
  obtain ⟨n, hn⟩ : ∃ n : ℤ, round (q * 1000) = n := ⟨_, rfl⟩
  have hr3 : roundTo3 q = (n : ℚ) / 1000 := by rw [roundTo3, hn]
  rw [hr3]
  unfold fmt3String
  rw [hn]
  by_cases hneg : n < 0
  · rw [if_pos hneg]
    unfold pyFloatOfString
    rw [string_toList_mk]
    rw [pyStripChars_of_no_space _ (by
      intro c hc
      rcases List.mem_cons.mp hc with h | h
      · subst h; decide
      · exact fmt3AbsChars_no_space _ c h)]
    rw [splitSign_neg]
    have hcast : ((n.natAbs : ℚ)) = -(n : ℚ) := by
      rw [Int.cast_natAbs, abs_of_neg hneg]
      push_cast
      ring
    simp [parseUnsigned_fmt3Abs, hcast, neg_div, neg_neg]
  · rw [if_neg hneg]
    unfold pyFloatOfString
    rw [string_toList_mk]
    rw [pyStripChars_of_no_space _ (fmt3AbsChars_no_space _),
      splitSign_of_digit _ (fmt3AbsChars_head_digit _)]
    have hcast : ((n.natAbs : ℚ)) = (n : ℚ) := by
      rw [Int.cast_natAbs, abs_of_nonneg (not_lt.mp hneg)]
    simp [parseUnsigned_fmt3Abs, hcast]

/-! ## Supporting lemmas: three-decimal values -/

theorem roundTo3_eq_self (q : ℚ) (h : isMilli q) : roundTo3 q = q := by
  obtain ⟨k, hk⟩ := h
  unfold roundTo3
  rw [← hk, round_intCast, hk]
  field_simp

theorem isMilli_roundTo3 (q : ℚ) : isMilli (roundTo3 q) := by
  refine ⟨round (q * 1000), ?_⟩
  unfold roundTo3
  field_simp

theorem pyFloat_empty : pyFloatOfString "" = none := rfl

/-- Coordinate normalization yields either the empty string or a
3-decimal rendering. -/
theorem cleanCoordField_cases (v : String) :
    cleanCoordField v = "" ∨ ∃ q, cleanCoordField v = fmt3String q := by
  unfold cleanCoordField
  cases pyFloatOfString (cleanCoordChars v) with
  | none => exact Or.inl rfl
  | some q => exact Or.inr ⟨q, rfl⟩

theorem normalizeCell_coord_cases (x : String) :
    normalizeCell x true = "" ∨ ∃ q, normalizeCell x true = fmt3String q := by
  rw [normalizeCell, if_pos rfl]
  exact cleanCoordField_cases _

/-- A parsed normalized-coordinate string is a whole number of
thousandths. -/
theorem isMilli_of_parse_normalized (x : String) (q : ℚ)
    (h : pyFloatOfString (normalizeCell x true) = some q) : isMilli q := by
  rcases normalizeCell_coord_cases x with hc | ⟨q0, hc⟩
  · rw [hc, pyFloat_empty] at h
    exact absurd h (by simp)
  · rw [hc, pyFloat_fmt3String] at h
    obtain rfl : roundTo3 q0 = q := by injection h
    exact isMilli_roundTo3 q0

/-! ## Supporting lemmas: escaping round-trip -/

theorem tomlUnescapeChars_escape (cs : List Char) :
    tomlUnescapeChars ((cs.map escChar).flatten) = cs := by
  induction cs with
  | nil => rfl
  | cons c t ih =>
      by_cases h1 : c = '\\'
      · subst h1
        rw [show (('\\' :: t).map escChar).flatten = '\\' :: '\\' :: (t.map escChar).flatten
          from rfl, tomlUnescapeChars.eq_def]
        simp [ih]
      · by_cases h2 : c = '\"'
        · subst h2
          rw [show (('\"' :: t).map escChar).flatten = '\\' :: '\"' :: (t.map escChar).flatten
            from rfl, tomlUnescapeChars.eq_def]
          simp [ih]
        · rw [show ((c :: t).map escChar).flatten = escChar c ++ (t.map escChar).flatten
            from rfl]
          rw [show escChar c = [c] by simp [escChar, h1, h2]]
          rw [show ([c] ++ (t.map escChar).flatten) = c :: (t.map escChar).flatten from rfl,
            tomlUnescapeChars.eq_def]
          simp [h1, ih]

theorem tomlUnescape_tomlEscape (s : String) : tomlUnescape (tomlEscape s) = s := by
  cases s with
  | mk data =>
      show String.mk (tomlUnescapeChars ((data.map escChar).flatten)) = String.mk data
      rw [tomlUnescapeChars_escape]

/-! ## Supporting lemmas: write_toml structure -/

theorem resolveClosure_fst_sublist (vs : List Vertex) :
    (resolveClosure vs).1.Sublist vs := by
  unfold resolveClosure
  split
  · split
    · exact List.dropLast_sublist vs
    · exact List.Sublist.refl vs
  · exact List.Sublist.refl vs

theorem resolveClosure_fst_ne_nil (vs : List Vertex) (h : vs ≠ []) :
    (resolveClosure vs).1 ≠ [] := by
  unfold resolveClosure
  split
  case isTrue h2 =>
    split
    · intro hnil
      have hnil2 : vs.dropLast = [] := hnil
      have hlen := List.length_dropLast vs
      rw [hnil2] at hlen
      simp at hlen
      omega
    · exact h
  case isFalse h2 => exact h

theorem write_toml_eq (df : List CsvRow) (res : WriteOut)
    (h : write_toml df = some res) :
    res.vertices = (resolveClosure (buildVertices df)).1 ∧
    res.closed = (resolveClosure (buildVertices df)).2 ∧
    res.rows = labelRows res.vertices ∧
    res.vertices ≠ [] := by
  unfold write_toml at h
  by_cases hv : buildVertices df = []
  · rw [if_pos hv] at h
    exact absurd h (by simp)
  · rw [if_neg hv] at h
    injection h with h
    subst h
    exact ⟨rfl, rfl, rfl, resolveClosure_fst_ne_nil _ hv⟩

theorem mem_buildVertices_milli (df : List CsvRow) (v : Vertex)
    (hv : v ∈ buildVertices df)
    (hdf : ∀ r ∈ df, (r.northing = "" ∨ ∃ q, r.northing = fmt3String q) ∧
                     (r.easting = "" ∨ ∃ q, r.easting = fmt3String q)) :
    isMilli v.north ∧ isMilli v.east := by
  unfold buildVertices at hv
  obtain ⟨r, hr, heq⟩ := List.mem_filterMap.mp hv
  have hfield : ∀ (s : String) (q : ℚ), (s = "" ∨ ∃ q0, s = fmt3String q0) →
      pyFloatOfString s = some q → isMilli q := by
    rintro s q (rfl | ⟨q0, rfl⟩) hp
    · exact absurd (pyFloat_empty ▸ hp) (by simp)
    · rw [pyFloat_fmt3String] at hp
      obtain rfl : roundTo3 q0 = q := by injection hp
      exact isMilli_roundTo3 q0
  revert heq
  cases hn : pyFloatOfString r.northing with
  | none => intro heq; exact absurd heq (by simp)
  | some n =>
      cases he : pyFloatOfString r.easting with
      | none => intro heq; exact absurd heq (by simp)
      | some e =>
          intro heq
          obtain rfl : (⟨r.marker, n, e⟩ : Vertex) = v := by injection heq
          exact ⟨hfield r.northing n (hdf r hr).1 hn, hfield r.easting e (hdf r hr).2 he⟩

theorem parseTable_normalized (raws : List (List String)) :
    ∀ r ∈ parseTable raws,
      (r.northing = "" ∨ ∃ q, r.northing = fmt3String q) ∧
      (r.easting = "" ∨ ∃ q, r.easting = fmt3String q) := by
  intro r hr
  unfold parseTable at hr
  obtain ⟨raw, _, rfl⟩ := List.mem_map.mp (List.mem_of_mem_filter hr)
  simp only [normalizeRow]
  exact ⟨normalizeCell_coord_cases _, normalizeCell_coord_cases _⟩

theorem labelRows_map_vertex (vs : List Vertex) :
    (labelRows vs).map (fun r => (⟨r.name, r.n, r.e⟩ : Vertex)) = vs := by
  unfold labelRows
  rw [List.map_map]
  have hcomp : ((fun r : MarkerRow => (⟨r.name, r.n, r.e⟩ : Vertex)) ∘
      fun p : ℕ × Vertex =>
        (⟨p.1 + 1, labelOf (p.1 + 1), p.2.marker, p.2.north, p.2.east⟩ : MarkerRow))
      = Prod.snd := by
    funext p
    rfl
  rw [hcomp, List.enum_map_snd]

theorem labelRows_milli (vs : List Vertex)
    (h : ∀ v ∈ vs, isMilli v.north ∧ isMilli v.east) :
    ∀ r ∈ labelRows vs, isMilli r.n ∧ isMilli r.e := by
  intro r hr
  unfold labelRows at hr
  obtain ⟨p, hp, rfl⟩ := List.mem_map.mp hr
  have hsnd : p.2 ∈ vs := by
    have := List.enum_map_snd vs
    rw [← this]
    exact List.mem_map_of_mem Prod.snd hp
  exact h p.2 hsnd

/-! ## Supporting lemmas: the serializer round-trip -/

theorem roundtrip_rows (rows : List MarkerRow)
    (h : ∀ r ∈ rows, isMilli r.n ∧ isMilli r.e) :
    ((writeTextRows rows).map writtenRowValue).filterMap rowToVertex
      = rows.map fun r => (⟨r.name, r.n, r.e⟩ : Vertex) := by
  induction rows with
  | nil => rfl
  | cons r t ih =>
      have hr := h r (by simp)
      have ht := ih fun x hx => h x (by simp [hx])
      simp only [writeTextRows, List.map_cons] at ht ⊢
      rw [List.filterMap_cons]
      rw [show writtenRowValue ⟨r.idx, tomlEscape r.label, tomlEscape r.name,
            fmt3String r.n, fmt3String r.e⟩
          = .vArr [ .vInt r.idx, .vStr (tomlUnescape (tomlEscape r.label))
                  , .vStr (tomlUnescape (tomlEscape r.name))
                  , .vFloat ((pyFloatOfString (fmt3String r.n)).getD 0)
                  , .vFloat ((pyFloatOfString (fmt3String r.e)).getD 0)] from rfl]
      rw [tomlUnescape_tomlEscape, tomlUnescape_tomlEscape,
        pyFloat_fmt3String, pyFloat_fmt3String]
      simp only [Option.getD_some]
      rw [roundTo3_eq_self _ hr.1, roundTo3_eq_self _ hr.2]
      simp only [rowToVertex, pyFloatCoerce, pyStrOf]
      simp only [List.filterMap_map, List.map_map] at ht
      simp [ht]

theorem loadFromDoc_written (closed : Bool) (rows : List MarkerRow)
    (hne : rows ≠ []) (h : ∀ r ∈ rows, isMilli r.n ∧ isMilli r.e) :
    loadFromDoc (tomlOfWritten closed (writeTextRows rows))
      = .ok (some (rows.map fun r => (⟨r.name, r.n, r.e⟩ : Vertex))) := by
  have hred : loadFromDoc (tomlOfWritten closed (writeTextRows rows))
      = (if truthy (.vArr ((writeTextRows rows).map writtenRowValue)) = true then
          (if ((writeTextRows rows).map writtenRowValue).filterMap rowToVertex = [] then
            Except.ok none
          else .ok (some (((writeTextRows rows).map writtenRowValue).filterMap rowToVertex)))
        else .ok none) := rfl
  rw [hred, roundtrip_rows rows h]
  obtain ⟨r0, t0, rfl⟩ := List.exists_cons_of_ne_nil hne
  rw [if_pos (by simp [writeTextRows, truthy])]
  rw [if_neg (by simp)]

theorem ratAbs_eq_abs (q : ℚ) : ratAbs q = |q| := by
  unfold ratAbs
  by_cases h : q < 0
  · rw [if_pos h, abs_of_neg h]
  · rw [if_neg h, abs_of_nonneg (not_lt.mp h)]

theorem load_side_ok (d : TomlValue) :
    load_vertices_from_side_toml (some (.ok d)) = loadFromDoc d := rfl

theorem labelRows_length (vs : List Vertex) : (labelRows vs).length = vs.length := by
  simp [labelRows, List.enum_length]

theorem labelRows_ne_nil (vs : List Vertex) (h : vs ≠ []) : labelRows vs ≠ [] := by
  intro hnil
  have := labelRows_length vs
  rw [hnil] at this
  simp at this
  exact h (List.eq_nil_of_length_eq_zero this.symm)

/-! ## Claim theorems -/

/-- C1: for every vertex list produced by the pipeline, writing it
with `write_toml` and reading the document back through
`load_vertices_from_side_toml` yields the same ordered sequence of
(marker, northing, easting) tuples, each coordinate being the original
(3-decimal-rounded) value. -/
theorem C1_roundtrip (raws : List (List String)) (res : WriteOut)
    (h : write_toml (parseTable raws) = some res) :
    load_vertices_from_side_toml
        (some (.ok (tomlOfWritten res.closed (writeTextRows res.rows))))
      = .ok (some res.vertices) := by
  obtain ⟨hv, -, hrows, hne⟩ := write_toml_eq _ _ h
  have hmilli : ∀ v ∈ res.vertices, isMilli v.north ∧ isMilli v.east := by
    intro v hv2
    have hv3 : v ∈ buildVertices (parseTable raws) := by
      rw [hv] at hv2
      exact List.Sublist.mem hv2 (resolveClosure_fst_sublist _)
    exact mem_buildVertices_milli _ v hv3 (parseTable_normalized raws)
  rw [load_side_ok, hrows, loadFromDoc_written res.closed _ (labelRows_ne_nil _ hne)
    (labelRows_milli _ hmilli), labelRows_map_vertex]

set_option maxRecDepth 10000 in
set_option maxHeartbeats 1000000 in
/-- Witness for C1 at a concrete one-row table. -/
theorem C1_roundtrip_witness :
    write_toml (parseTable rawsC1) = some resC1 ∧
    load_vertices_from_side_toml
        (some (.ok (tomlOfWritten resC1.closed (writeTextRows resC1.rows))))
      = .ok (some resC1.vertices) :=
  ⟨by with_unfolding_all decide, C1_roundtrip rawsC1 resC1 (by with_unfolding_all decide)⟩

/-- C2: with at least two vertices, the builder closes the polygon and
removes the trailing vertex exactly when both axis differences are
below `1e-3` and the marker strings are equal; with fewer than two
vertices nothing happens. -/
theorem C2_closureRule (vs : List Vertex) :
    (2 ≤ vs.length →
      (((resolveClosure vs).2 = true ∧ (resolveClosure vs).1 = vs.dropLast) ↔
        (|vs.head!.north - vs.getLast!.north| < 1 / 1000 ∧
         |vs.head!.east - vs.getLast!.east| < 1 / 1000 ∧
         vs.head!.marker = vs.getLast!.marker))) ∧
    (vs.length < 2 → resolveClosure vs = (vs, false)) := by
  constructor
  · intro h2
    unfold resolveClosure
    rw [if_pos h2]
    by_cases hm : closeMatch vs.head! vs.getLast! = true
    · rw [if_pos hm]
      unfold closeMatch at hm
      simp only [ratAbs_eq_abs, Bool.and_eq_true, decide_eq_true_eq] at hm
      constructor
      · intro _
        exact ⟨hm.1.1, hm.1.2, hm.2⟩
      · intro _
        exact ⟨rfl, rfl⟩
    · rw [if_neg hm]
      unfold closeMatch at hm
      simp only [ratAbs_eq_abs, Bool.and_eq_true, decide_eq_true_eq, not_and] at hm
      constructor
      · rintro ⟨habs, -⟩
        exact absurd habs (by simp)
      · rintro ⟨ha, hb, hc⟩
        exact absurd hc (hm ⟨ha, hb⟩)
  · intro h2
    unfold resolveClosure
    rw [if_neg (by omega)]

/-- Witness for C2 at two coincident vertices. -/
theorem C2_closureRule_witness :
    (resolveClosure vsC2).2 = true ∧ (resolveClosure vsC2).1 = vsC2.dropLast :=
  ((C2_closureRule vsC2).1 (by decide)).mpr
    ⟨(by norm_num : |(0 : ℚ) - 0| < 1 / 1000),
     (by norm_num : |(0 : ℚ) - 0| < 1 / 1000), rfl⟩

/-- C3 counterexample: rows that repeat the closing vertex twice give
a closed vertex list whose stored last vertex still duplicates the
first — the claimed uniqueness invariant fails. -/
theorem C3_counterexample :
    write_toml dfC3 = some resC3 ∧ resC3.closed = true ∧
    resC3.vertices.getLast! = resC3.vertices.head! := by
  refine ⟨by with_unfolding_all decide, rfl, by with_unfolding_all decide⟩

/-- C3 (amended): when the builder closes the polygon it removes
exactly the one trailing vertex, which matched the first vertex within
the closure tolerance; the stored list is the parsed list without its
last element and may still contain duplicates. -/
theorem C3_closedInvariant (vs vs' : List Vertex)
    (h : resolveClosure vs = (vs', true)) :
    vs' = vs.dropLast ∧ 2 ≤ vs.length ∧
    closeMatch vs.head! vs.getLast! = true := by
  unfold resolveClosure at h
  by_cases h2 : 2 ≤ vs.length
  · rw [if_pos h2] at h
    by_cases hm : closeMatch vs.head! vs.getLast! = true
    · rw [if_pos hm] at h
      rw [Prod.mk.injEq] at h
      exact ⟨h.1.symm, h2, hm⟩
    · rw [if_neg hm] at h
      rw [Prod.mk.injEq] at h
      exact absurd h.2 (by simp)
  · rw [if_neg h2] at h
    rw [Prod.mk.injEq] at h
    exact absurd h.2 (by simp)

/-- Witness for the amended C3. -/
theorem C3_closedInvariant_witness :
    resolveClosure vsC3 = ([⟨"P", 1, 2⟩], true) ∧
    ([⟨"P", 1, 2⟩] : List Vertex) = vsC3.dropLast ∧ 2 ≤ vsC3.length ∧
    closeMatch vsC3.head! vsC3.getLast! = true :=
  ⟨by with_unfolding_all decide,
   C3_closedInvariant vsC3 [⟨"P", 1, 2⟩] (by with_unfolding_all decide)⟩

theorem substChar_chain (c : Char) :
    subChar 'L' '1' (subChar 'l' '1' (subChar 'i' '1'
      (subChar 'I' '1' (subChar 'o' '0' (subChar 'O' '0' c)))))
      = specSubstChar c := by
  by_cases h1 : c = 'O'
  · subst h1; rfl
  by_cases h2 : c = 'o'
  · subst h2; rfl
  by_cases h3 : c = 'I'
  · subst h3; rfl
  by_cases h4 : c = 'i'
  · subst h4; rfl
  by_cases h5 : c = 'l'
  · subst h5; rfl
  by_cases h6 : c = 'L'
  · subst h6; rfl
  unfold subChar
  rw [if_neg h1, if_neg h2, if_neg h3, if_neg h4, if_neg h5, if_neg h6,
    specSubstChar, if_neg (by tauto), if_neg (by tauto)]

theorem ocrFix_eq_map (s : String) :
    ocrFix s = String.mk (s.toList.map specSubstChar) := by
  have hlist : ∀ l : List Char,
      (((((l.map (subChar 'O' '0')).map (subChar 'o' '0')).map
          (subChar 'I' '1')).map (subChar 'i' '1')).map
          (subChar 'l' '1')).map (subChar 'L' '1')
        = l.map specSubstChar := by
    intro l
    induction l with
    | nil => rfl
    | cons a t ih =>
        simp only [List.map_cons]
        rw [substChar_chain a, ih]
  cases s with
  | mk data => exact congrArg String.mk (hlist data)

set_option maxRecDepth 10000 in
/-- C4: cell normalization is the spec's pipeline — trim and collapse
non-breaking spaces, one left-to-right confusion-substitution pass,
and for coordinate cells the `[0-9.]` filter, dot merge, float parse
and 3-decimal rendering with the empty string on failure; in
particular `"O12I.5o"` normalizes to `"121.500"`. -/
theorem C4_cellNormalization :
    (∀ x b, normalizeCell x b = specNormalizeCell x b) ∧
    normalizeCell "O12I.5o" true = "121.500" := by
  constructor
  · intro x b
    unfold normalizeCell specNormalizeCell
    rw [ocrFix_eq_map]
  · with_unfolding_all decide

/-! ## Supporting lemmas: orchestrator -/

theorem write_toml_nil : write_toml [] = none := rfl

theorem writeStep_some (df : List CsvRow) :
    ∃ p, writeStep df true = some p := by
  unfold writeStep
  by_cases h : df.isEmpty
  · rw [if_pos h]
    exact ⟨_, rfl⟩
  · rw [if_neg h]
    cases write_toml df with
    | none => exact ⟨_, rfl⟩
    | some res => exact ⟨(some (res.closed, res.rows), res.vertices), rfl⟩

theorem writeStep_spec (df : List CsvRow) (w : Bool)
    (written : Option (Bool × List MarkerRow)) (ocr : List Vertex)
    (h : writeStep df w = some (written, ocr)) :
    written = (write_toml df).map (fun res => (res.closed, res.rows)) ∧
    ocr = ((write_toml df).map (·.vertices)).getD [] := by
  unfold writeStep at h
  by_cases h1 : df.isEmpty
  · rw [if_pos h1] at h
    have hdf : df = [] := by simpa using h1
    have h2 : ((none : Option (Bool × List MarkerRow)), ([] : List Vertex))
        = (written, ocr) := by injection h
    rw [Prod.mk.injEq] at h2
    rw [hdf, write_toml_nil, ← h2.1, ← h2.2]
    exact ⟨rfl, rfl⟩
  · rw [if_neg h1] at h
    cases hw : write_toml df with
    | none =>
        rw [hw] at h
        have h2 : ((none : Option (Bool × List MarkerRow)), ([] : List Vertex))
            = (written, ocr) := by injection h
        rw [Prod.mk.injEq] at h2
        rw [← h2.1, ← h2.2]
        exact ⟨rfl, rfl⟩
    | some res =>
        rw [hw] at h
        cases w with
        | false =>
            have h2 : (none : Option (Option (Bool × List MarkerRow) × List Vertex))
                = some (written, ocr) := h
            exact absurd h2 (by simp)
        | true =>
            have h2 : (some (res.closed, res.rows), res.vertices) = (written, ocr) := by
              injection h
            rw [Prod.mk.injEq] at h2
            rw [← h2.1, ← h2.2]
            exact ⟨rfl, rfl⟩

theorem processDoc_engine (d : DocEnv) (s : String) (h : d.tables = .error s) :
    processDoc d = .error (.engine s) := by
  unfold processDoc
  rw [h]

theorem processDoc_benign (d : DocEnv) (hb : benign d) :
    ∃ o, processDoc d = .ok o := by
  obtain ⟨⟨arts, ht⟩, hw, r, hr⟩ := hb
  obtain ⟨t, w, sd⟩ := d
  cases ht
  cases hw
  obtain ⟨⟨written, ocr⟩, hws⟩ := writeStep_some (dfOf arts)
  refine ⟨⟨dfOf arts, written, choosePlot r ocr⟩, ?_⟩
  show (match writeStep (dfOf arts) true with
    | none => Except.error Failure.writeErr
    | some (written, ocrVerts) =>
        match load_vertices_from_side_toml sd with
        | .error e => .error (.pyErr e)
        | .ok sideV =>
            Except.ok (⟨dfOf arts, written, choosePlot sideV ocrVerts⟩ : DocOutcome))
    = Except.ok (⟨dfOf arts, written, choosePlot r ocr⟩ : DocOutcome)
  rw [hws]
  show (match load_vertices_from_side_toml sd with
    | Except.error e => Except.error (Failure.pyErr e)
    | Except.ok sideV => Except.ok (⟨dfOf arts, written, choosePlot sideV ocr⟩ : DocOutcome))
    = Except.ok (⟨dfOf arts, written, choosePlot r ocr⟩ : DocOutcome)
  rw [hr]

theorem processBatch_benign : ∀ docs : List DocEnv, (∀ d ∈ docs, benign d) →
    ∃ os, processBatch docs = .ok os ∧ os.length = docs.length := by
  intro docs
  induction docs with
  | nil => exact fun _ => ⟨[], rfl, rfl⟩
  | cons d ds ih =>
      intro h
      obtain ⟨o, ho⟩ := processDoc_benign d (h d (by simp))
      obtain ⟨os, hos, hlen⟩ := ih fun x hx => h x (by simp [hx])
      refine ⟨o :: os, ?_, by simp [hlen]⟩
      unfold processBatch
      rw [ho, hos]

theorem processDoc_ok_spec (d : DocEnv) (o : DocOutcome)
    (h : processDoc d = .ok o) :
    ∃ arts sideV, d.tables = .ok arts ∧
      load_vertices_from_side_toml d.side = .ok sideV ∧
      o.df = dfOf arts ∧
      ∃ ocr, writeStep (dfOf arts) d.writeOk = some (o.written, ocr) ∧
        o.plotted = choosePlot sideV ocr := by
  obtain ⟨t, w, sd⟩ := d
  unfold processDoc at h
  cases t with
  | error s => exact absurd h (by simp)
  | ok arts =>
      have h1 : (match writeStep (dfOf arts) w with
        | none => Except.error Failure.writeErr
        | some (written, ocrVerts) =>
            match load_vertices_from_side_toml sd with
            | .error e => .error (.pyErr e)
            | .ok sideV =>
                Except.ok (⟨dfOf arts, written, choosePlot sideV ocrVerts⟩ : DocOutcome))
          = Except.ok o := h
      clear h
      cases hws : writeStep (dfOf arts) w with
      | none => rw [hws] at h1; exact absurd h1 (by simp)
      | some p =>
          obtain ⟨written, ocr⟩ := p
          rw [hws] at h1
          have h2 : (match load_vertices_from_side_toml sd with
            | .error e => Except.error (Failure.pyErr e)
            | .ok sideV =>
                Except.ok (⟨dfOf arts, written, choosePlot sideV ocr⟩ : DocOutcome))
              = Except.ok o := h1
          clear h1
          cases hl : load_vertices_from_side_toml sd with
          | error e => rw [hl] at h2; exact absurd h2 (by simp)
          | ok sideV =>
              rw [hl] at h2
              have ho : (⟨dfOf arts, written, choosePlot sideV ocr⟩ : DocOutcome) = o := by
                injection h2
              refine ⟨arts, sideV, rfl, rfl, ?_, ocr, ?_, ?_⟩
              · rw [← ho]
              · rw [← ho]
                exact hws
              · rw [← ho]

set_option maxRecDepth 10000 in
/-- C5 counterexample: a batch whose first document's recognition call
raises aborts immediately — the second document, which on its own
processes fine, is never reached, refuting "processing proceeds to the
next document". -/
theorem C5_counterexample :
    processBatch [dEngineFail, dGood] = .error (.engine "engine crash") ∧
    processDoc dGood = .ok ⟨[⟨"M", "1.500", "2.500"⟩],
      some (false, [⟨1, "A", "M", 3/2, 5/2⟩]), some [⟨"M", 3/2, 5/2⟩]⟩ := by
  constructor
  · rfl
  · with_unfolding_all rfl

set_option maxRecDepth 10000 in
/-- C5 (amended): a missing root input folder is fatal before any
document is processed, as is an input tree with no table images; a
recognition-engine failure aborts the batch at that document, and so
does a canonical-write failure on a document that reaches the write;
a batch of documents whose engine calls return and whose writes and
override loads do not raise is processed end to end, one outcome per
document — artifact-parse failures and unparseable override files are
tolerated inside a document. -/
theorem C5_errorHandling :
    (∀ docs : List DocEnv, runPipeline false docs = .error .noRoot) ∧
    (runPipeline true [] = .error .noImages) ∧
    (∀ (s : String) (d : DocEnv) (ds : List DocEnv), d.tables = .error s →
      processBatch (d :: ds) = .error (.engine s)) ∧
    (∀ (d : DocEnv) (ds : List DocEnv) arts res, d.tables = .ok arts →
      d.writeOk = false → write_toml (dfOf arts) = some res →
      processBatch (d :: ds) = .error .writeErr) ∧
    (∀ docs : List DocEnv, (∀ d ∈ docs, benign d) →
      ∃ os, processBatch docs = .ok os ∧ os.length = docs.length) := by
  refine ⟨fun docs => rfl, rfl, ?_, ?_, processBatch_benign⟩
  · intro s d ds h
    unfold processBatch
    rw [processDoc_engine d s h]
  · intro d ds arts res ht hw hwt
    have hdfne : ¬(dfOf arts).isEmpty = true := by
      intro hempty
      have hnil : dfOf arts = [] := by simpa using hempty
      rw [hnil, write_toml_nil] at hwt
      exact absurd hwt (by simp)
    have hws : writeStep (dfOf arts) false = none := by
      unfold writeStep
      rw [if_neg hdfne, hwt]
      rfl
    have hpd : processDoc d = .error .writeErr := by
      obtain ⟨t, w, sd⟩ := d
      cases ht
      cases hw
      show (match writeStep (dfOf arts) false with
        | none => Except.error Failure.writeErr
        | some (written, ocrVerts) =>
            match load_vertices_from_side_toml sd with
            | .error e => .error (.pyErr e)
            | .ok sideV =>
                Except.ok (⟨dfOf arts, written, choosePlot sideV ocrVerts⟩ : DocOutcome))
        = Except.error Failure.writeErr
      rw [hws]
    unfold processBatch
    rw [hpd]

set_option maxRecDepth 10000 in
/-- Witness for the amended C5: the engine-failure document aborts its
batch, so does the write-failure document, and the tolerant document
is benign. -/
theorem C5_errorHandling_witness :
    processBatch [dEngineFail] = .error (.engine "engine crash") ∧
    processBatch [dWriteFail] = .error .writeErr ∧
    ∃ os, processBatch [dTolerated] = .ok os ∧ os.length = 1 :=
  ⟨C5_errorHandling.2.2.1 "engine crash" dEngineFail [] rfl,
   C5_errorHandling.2.2.2.1 dWriteFail [] [.ok [["M", "", "1.5", "2.5"]]] resC5 rfl rfl
     (by with_unfolding_all decide),
   C5_errorHandling.2.2.2.2 [dTolerated] (by
     intro d hd
     rw [List.mem_singleton] at hd
     subst hd
     exact ⟨⟨_, rfl⟩, rfl, none, rfl⟩)⟩

/-- C6 counterexample: a document whose table rows carry no parseable
coordinates — OCR ran and returned a non-empty frame — writes no
canonical document, refuting "whenever OCR runs the canonical document
is still written". -/
theorem C6_counterexample :
    processDoc dNoNumeric = .ok ⟨[⟨"A", "", ""⟩], none, none⟩ := by
  with_unfolding_all rfl

/-- C6 (amended): the canonical document is written exactly when the
OCR frame yields at least one numeric vertex (and then its content is
a function of the frame alone, independent of the override file), and
the rendered list is the override vertices when a truthy override
exists, else the OCR vertices when non-empty, else nothing. -/
theorem C6_overrideResolution :
    (∀ d o, processDoc d = .ok o →
      o.written = (write_toml o.df).map fun res => (res.closed, res.rows)) ∧
    (∀ t w s₁ s₂ o₁ o₂, processDoc ⟨t, w, s₁⟩ = .ok o₁ → processDoc ⟨t, w, s₂⟩ = .ok o₂ →
      o₁.written = o₂.written) ∧
    (∀ d o lv, processDoc d = .ok o → load_vertices_from_side_toml d.side = .ok (some lv) →
      lv ≠ [] → o.plotted = some lv) ∧
    (∀ d o, processDoc d = .ok o → load_vertices_from_side_toml d.side = .ok none →
      o.plotted = (write_toml o.df).bind fun res =>
        if res.vertices.isEmpty then none else some res.vertices) := by
  have hwritten : ∀ d o, processDoc d = .ok o →
      o.written = (write_toml o.df).map fun res => (res.closed, res.rows) := by
    intro d o h
    obtain ⟨arts, sideV, -, -, hdf, ocr, hws, -⟩ := processDoc_ok_spec d o h
    obtain ⟨h1, -⟩ := writeStep_spec _ _ _ _ hws
    rw [h1, hdf]
  refine ⟨hwritten, ?_, ?_, ?_⟩
  · intro t w s₁ s₂ o₁ o₂ h₁ h₂
    obtain ⟨arts₁, _, ht₁, -, hdf₁, -⟩ := processDoc_ok_spec _ _ h₁
    obtain ⟨arts₂, _, ht₂, -, hdf₂, -⟩ := processDoc_ok_spec _ _ h₂
    have harts : arts₁ = arts₂ := by
      have : Except.ok (ε := String) arts₁ = Except.ok arts₂ := ht₁.symm.trans ht₂
      injection this
    rw [hwritten _ _ h₁, hwritten _ _ h₂, hdf₁, hdf₂, harts]
  · intro d o lv h hl hne
    obtain ⟨arts, sideV, -, hl2, -, ocr, -, hplot⟩ := processDoc_ok_spec d o h
    have hsv : sideV = some lv := by
      have : Except.ok (ε := PyErr) sideV = Except.ok (some lv) := hl2.symm.trans hl
      injection this
    rw [hplot, hsv]
    show (if lv.isEmpty then (if ocr.isEmpty then none else some ocr) else some lv) = some lv
    rw [if_neg (by simpa using hne)]
  · intro d o h hl
    obtain ⟨arts, sideV, -, hl2, hdf, ocr, hws, hplot⟩ := processDoc_ok_spec d o h
    have hsv : sideV = none := by
      have : Except.ok (ε := PyErr) sideV = Except.ok none := hl2.symm.trans hl
      injection this
    obtain ⟨-, h2⟩ := writeStep_spec _ _ _ _ hws
    rw [hplot, hsv, hdf]
    unfold choosePlot
    rw [h2]
    cases write_toml (dfOf arts) with
    | none => rfl
    | some res => rfl

/-- Witness for the amended C6: a well-formed override supersedes the
(empty) OCR vertices for rendering. -/
theorem C6_overrideResolution_witness :
    oOvr.plotted = some [vOvr] :=
  C6_overrideResolution.2.2.1 dOvr oOvr [vOvr] (by with_unfolding_all rfl)
    (by with_unfolding_all rfl) (by simp)

/-- C7: for every rectangle and image size, after clamping either both
clamped extents are strictly positive and the region proceeds, or the
region is rejected and no clipped artifact is produced. -/
theorem C7_clipGuard :
    (∀ (w h : ℚ) (r : RectQ),
      (∃ c, clipCheck w h r = some c ∧ c.ulx < c.lrx ∧ c.uly < c.lry) ∨
      clipCheck w h r = none) ∧
    (∀ (W H : ℕ) (r : RectQ), clipCheck (W : ℚ) (H : ℚ) r = none →
      clippedSize W H r = none) := by
  constructor
  · intro w h r
    unfold clipCheck
    by_cases hc : (clampRect w h r).lrx ≤ (clampRect w h r).ulx ∨
        (clampRect w h r).lry ≤ (clampRect w h r).uly
    · right
      rw [if_pos hc]
    · left
      rw [if_neg hc]
      rw [not_or, not_le, not_le] at hc
      exact ⟨clampRect w h r, rfl, hc.1, hc.2⟩
  · intro W H r h
    unfold clippedSize
    rw [h]
    rfl

/-- Witness for C7: a zero-width region is rejected before the crop. -/
theorem C7_clipGuard_witness :
    clippedSize 5 7 ⟨0, 0, 0, 7⟩ = none :=
  C7_clipGuard.2 5 7 ⟨0, 0, 0, 7⟩ (by with_unfolding_all rfl)

/-- C8: clipping the full-image region of a (W,H) image at scale
factor 2 produces an artifact of size (max 1 (W/2), max 1 (H/2)), with
integer halving of the cropped extents. -/
theorem C8_fullImageClip (W H : ℕ) (hW : 0 < W) (hH : 0 < H) :
    clippedSize W H ⟨0, 0, (W : ℚ), (H : ℚ)⟩ = some (max 1 (W / 2), max 1 (H / 2)) := by
  have h0W : (0 : ℚ) ≤ (W : ℚ) := by positivity
  have h0H : (0 : ℚ) ≤ (H : ℚ) := by positivity
  have hclamp : clampRect (W : ℚ) (H : ℚ) ⟨0, 0, (W : ℚ), (H : ℚ)⟩
      = ⟨0, 0, (W : ℚ), (H : ℚ)⟩ := by
    show RectQ.mk (max 0 (min (W : ℚ) 0)) (max 0 (min (H : ℚ) 0))
      (max 0 (min (W : ℚ) (W : ℚ))) (max 0 (min (H : ℚ) (H : ℚ))) = _
    rw [min_eq_right h0W, min_eq_right h0H, min_self, min_self,
      max_self, max_eq_right h0W, max_eq_right h0H]
  unfold clippedSize clipCheck
  rw [hclamp]
  rw [if_neg (by
    rw [not_or, not_le, not_le]
    constructor
    · show (0 : ℚ) < (W : ℚ)
      exact_mod_cast hW
    · show (0 : ℚ) < (H : ℚ)
      exact_mod_cast hH)]
  show some (max 1 ((pyRound (W : ℚ) - pyRound (0 : ℚ)).toNat / 2),
      max 1 ((pyRound (H : ℚ) - pyRound (0 : ℚ)).toNat / 2)) = _
  have hrW : pyRound ((W : ℚ)) = (W : ℤ) := round_natCast W
  have hrH : pyRound ((H : ℚ)) = (H : ℤ) := round_natCast H
  have hr0 : pyRound (0 : ℚ) = 0 := round_zero
  rw [hrW, hrH, hr0, sub_zero, sub_zero, Int.toNat_natCast, Int.toNat_natCast]

/-- Witness for C8 on a 200 by 200 image. -/
theorem C8_fullImageClip_witness :
    0 < 200 ∧
    clippedSize 200 200 ⟨0, 0, ((200 : ℕ) : ℚ), ((200 : ℕ) : ℚ)⟩
      = some (max 1 (200 / 2), max 1 (200 / 2)) :=
  ⟨by decide, C8_fullImageClip 200 200 (by decide) (by decide)⟩

theorem labelRows_getQ (vs : List Vertex) (i : ℕ) (v : Vertex)
    (h : vs.get? i = some v) :
    (labelRows vs).get? i
      = some ⟨i + 1, labelOf (i + 1), v.marker, v.north, v.east⟩ := by
  unfold labelRows
  rw [List.get?_map, List.get?_enum, h]
  rfl

/-- C9: in the written document the vertex at 1-based index i carries
the label `chr(64+i)` for i up to 26 and `"P" ++ i` beyond, and the
rows are built from the post-closure vertex list, index-aligned. -/
theorem C9_labels (df : List CsvRow) (res : WriteOut) (h : write_toml df = some res) :
    res.rows.length = res.vertices.length ∧
    (∀ i v, res.vertices.get? i = some v →
      res.rows.get? i = some ⟨i + 1,
        (if i + 1 ≤ 26 then String.mk [Char.ofNat (64 + (i + 1))]
         else "P" ++ Nat.repr (i + 1)),
        v.marker, v.north, v.east⟩) ∧
    labelOf 1 = "A" ∧ labelOf 26 = "Z" ∧ labelOf 27 = "P27" := by
  obtain ⟨-, -, hrows, -⟩ := write_toml_eq df res h
  refine ⟨by rw [hrows]; exact labelRows_length _, ?_, by decide, by decide, by decide⟩
  intro i v hv
  rw [hrows, labelRows_getQ _ _ _ hv]
  rfl

/-- Witness for C9 at a one-row frame. -/
theorem C9_labels_witness :
    write_toml dfC9 = some resC9 ∧
    resC9.rows.get? 0 = some ⟨0 + 1,
      (if 0 + 1 ≤ 26 then String.mk [Char.ofNat (64 + (0 + 1))]
       else "P" ++ Nat.repr (0 + 1)), "X", 2, 3⟩ :=
  ⟨by with_unfolding_all decide,
   (C9_labels dfC9 resC9 (by with_unfolding_all decide)).2.1 0 ⟨"X", 2, 3⟩
     (by with_unfolding_all decide)⟩

theorem loadDeed_marker_none (kvs2 : List (String × TomlValue))
    (h : tget kvs2 "marker" = none) : loadDeed (.vTable kvs2) = .ok none := by
  show (match tget kvs2 "marker" with
    | none => Except.ok none
    | some m =>
        if truthy m then
          match iterElems m with
          | Except.error e => Except.error e
          | Except.ok rows2 =>
              if rows2.filterMap rowToVertex = [] then Except.ok none
              else Except.ok (some (rows2.filterMap rowToVertex))
        else Except.ok none) = Except.ok none
  rw [h]

theorem loadDeed_marker_falsy (kvs2 : List (String × TomlValue)) (m : TomlValue)
    (h : tget kvs2 "marker" = some m) (hf : truthy m = false) :
    loadDeed (.vTable kvs2) = .ok none := by
  show (match tget kvs2 "marker" with
    | none => Except.ok none
    | some m =>
        if truthy m then
          match iterElems m with
          | Except.error e => Except.error e
          | Except.ok rows2 =>
              if rows2.filterMap rowToVertex = [] then Except.ok none
              else Except.ok (some (rows2.filterMap rowToVertex))
        else Except.ok none) = Except.ok none
  rw [h]
  show (if truthy m then
      match iterElems m with
      | Except.error e => Except.error e
      | Except.ok rows2 =>
          if rows2.filterMap rowToVertex = [] then Except.ok none
          else Except.ok (some (rows2.filterMap rowToVertex))
    else Except.ok none) = Except.ok none
  rw [if_neg (by simp [hf])]

theorem loadDeed_no_rows (kvs2 : List (String × TomlValue)) (rows : List TomlValue)
    (h : tget kvs2 "marker" = some (.vArr rows))
    (h3 : ∀ row ∈ rows, rowToVertex row = none) :
    loadDeed (.vTable kvs2) = .ok none := by
  show (match tget kvs2 "marker" with
    | none => Except.ok none
    | some m =>
        if truthy m then
          match iterElems m with
          | Except.error e => Except.error e
          | Except.ok rows2 =>
              if rows2.filterMap rowToVertex = [] then Except.ok none
              else Except.ok (some (rows2.filterMap rowToVertex))
        else Except.ok none) = Except.ok none
  rw [h]
  show (if truthy (.vArr rows) then
      match iterElems (.vArr rows) with
      | Except.error e => Except.error e
      | Except.ok rows2 =>
          if rows2.filterMap rowToVertex = [] then Except.ok none
          else Except.ok (some (rows2.filterMap rowToVertex))
    else Except.ok none) = Except.ok none
  by_cases hr : truthy (.vArr rows) = true
  · rw [if_pos hr]
    show (if rows.filterMap rowToVertex = [] then Except.ok none
      else Except.ok (some (rows.filterMap rowToVertex))) = Except.ok none
    rw [if_pos (List.filterMap_eq_nil_iff.mpr h3)]
  · rw [if_neg hr]

/-- The two layout conventions the reader tolerates: the marker table
is the whole root document when the `Deed` key is absent, or the table
the `Deed` key holds. -/
theorem loadFromDoc_layout (kvs kvs2 : List (String × TomlValue))
    (h : (tget kvs "Deed" = none ∧ kvs2 = kvs) ∨
      tget kvs "Deed" = some (.vTable kvs2)) :
    load_vertices_from_side_toml (some (.ok (.vTable kvs))) = loadDeed (.vTable kvs2) := by
  rw [load_side_ok]
  show loadDeed ((tget kvs "Deed").getD (.vTable kvs)) = _
  rcases h with ⟨h1, rfl⟩ | h1 <;> rw [h1] <;> rfl

/-- C10 counterexample: a parseable override document whose `Deed` key
holds a plain integer lacks a marker array, yet the loader raises
(`AttributeError` from `tbl.get`) instead of returning the no-override
result. -/
theorem C10_counterexample :
    load_vertices_from_side_toml (some (.ok docDeedInt)) = .error .attrErr := rfl

/-- C10 (amended): the loader returns the no-override result when the
file is absent, unreadable or unparseable, and — in both tolerated
layouts, the root-level table and the `Deed`-nested table — when the
marker key is missing or holds a falsy value, or when no marker row
qualifies; rendering then falls back to the OCR vertices; but when
`Deed` maps to a non-table value the loader raises instead. -/
theorem C10_overrideRobustness :
    (load_vertices_from_side_toml none = .ok none) ∧
    (∀ e : String, load_vertices_from_side_toml (some (.error e)) = .ok none) ∧
    (∀ kvs kvs2, ((tget kvs "Deed" = none ∧ kvs2 = kvs) ∨
        tget kvs "Deed" = some (.vTable kvs2)) →
      (tget kvs2 "marker" = none →
        load_vertices_from_side_toml (some (.ok (.vTable kvs))) = .ok none) ∧
      (∀ m, tget kvs2 "marker" = some m → truthy m = false →
        load_vertices_from_side_toml (some (.ok (.vTable kvs))) = .ok none) ∧
      (∀ rows, tget kvs2 "marker" = some (.vArr rows) →
        (∀ row ∈ rows, rowToVertex row = none) →
        load_vertices_from_side_toml (some (.ok (.vTable kvs))) = .ok none)) ∧
    (∀ kvs v, tget kvs "Deed" = some v → (∀ kvs2, v ≠ .vTable kvs2) →
      load_vertices_from_side_toml (some (.ok (.vTable kvs))) = .error .attrErr) ∧
    (∀ d o, processDoc d = .ok o → load_vertices_from_side_toml d.side = .ok none →
      o.plotted = (write_toml o.df).bind fun res =>
        if res.vertices.isEmpty then none else some res.vertices) := by
  refine ⟨rfl, fun e => rfl, ?_, ?_, ?_⟩
  · intro kvs kvs2 hlay
    have hred := loadFromDoc_layout kvs kvs2 hlay
    refine ⟨?_, ?_, ?_⟩
    · intro h2
      rw [hred]
      exact loadDeed_marker_none kvs2 h2
    · intro m h2 hf
      rw [hred]
      exact loadDeed_marker_falsy kvs2 m h2 hf
    · intro rows h2 h3
      rw [hred]
      exact loadDeed_no_rows kvs2 rows h2 h3
  · intro kvs v h1 h2
    rw [load_side_ok]
    show loadDeed ((tget kvs "Deed").getD (.vTable kvs)) = .error .attrErr
    rw [h1]
    show loadDeed v = .error .attrErr
    cases v with
    | vTable kvs2 => exact absurd rfl (h2 kvs2)
    | vInt i => rfl
    | vFloat q => rfl
    | vStr s => rfl
    | vBool b => rfl
    | vArr xs => rfl
  · intro d o h hl
    obtain ⟨arts, sideV, -, hl2, hdf, ocr, hws, hplot⟩ := processDoc_ok_spec d o h
    have hsv : sideV = none := by
      have h3 : Except.ok (ε := PyErr) sideV = Except.ok none := hl2.symm.trans hl
      injection h3
    obtain ⟨-, h2⟩ := writeStep_spec _ _ _ _ hws
    rw [hplot, hsv, hdf]
    unfold choosePlot
    rw [h2]
    cases write_toml (dfOf arts) with
    | none => rfl
    | some res => rfl

/-- Witness for the amended C10: a root-level marker array with one
non-list row, and a Deed-nested empty (falsy) marker array, both yield
the no-override result. -/
theorem C10_overrideRobustness_witness :
    load_vertices_from_side_toml (some (.ok (.vTable [("marker", .vArr rowsC10)])))
      = .ok none ∧
    load_vertices_from_side_toml
        (some (.ok (.vTable [("Deed", .vTable [("marker", .vArr ([] : List TomlValue))])])))
      = .ok none :=
  ⟨(C10_overrideRobustness.2.2.1 [("marker", .vArr rowsC10)] [("marker", .vArr rowsC10)]
      (Or.inl ⟨rfl, rfl⟩)).2.2 rowsC10 rfl
      (by
        intro row hrow
        have hr : row = .vInt 7 := by simpa [rowsC10] using hrow
        rw [hr]
        rfl),
   (C10_overrideRobustness.2.2.1 [("Deed", .vTable [("marker", .vArr ([] : List TomlValue))])]
      [("marker", .vArr ([] : List TomlValue))] (Or.inr rfl)).2.1 (.vArr []) rfl rfl⟩

end RV25j
